import Mathlib

/-!
Verification development for the Metadata Aggregate of PhotosNormReloaded
(src/src/metadata.rs).  The aggregate is embedded shallowly: the mutable
Rust struct becomes an explicit state record, every `&mut self` method
becomes a state-passing function, and the three external collaborators
(filesystem rename, codec whole-file tag write, filename sanitiser) become
oracle parameters gathered in a `SaveEnv`.  Disk effects are recorded in an
explicit trace of `IOEvent`s so that claims about which I/O is performed,
and in which order, are statable.
-/

/-- The modified-tag flags, from src/src/metadata.rs (EnumSet over the
`Tag` enum with variants Description, Date, Dimensions, FileName). -/
inductive Tag
  | Description
  | Date
  | Dimensions
  | FileName
deriving DecidableEq, Repr

/-- The Modified-Tag Set: `EnumSet<Tag>` embedded as one boolean flag per
variant (a 4-bit bitset). -/
structure TagSet where
  description : Bool
  date : Bool
  dimensions : Bool
  fileName : Bool
deriving DecidableEq, Repr

/-- EnumSet::empty(). -/
def TagSet.empty : TagSet := ⟨false, false, false, false⟩

/-- EnumSet::contains. -/
def TagSet.contains (s : TagSet) (t : Tag) : Bool :=
  match t with
  | .Description => s.description
  | .Date => s.date
  | .Dimensions => s.dimensions
  | .FileName => s.fileName

/-- EnumSet::insert (set the flag of the given tag). -/
def TagSet.insert (s : TagSet) (t : Tag) : TagSet :=
  match t with
  | .Description => { s with description := true }
  | .Date => { s with date := true }
  | .Dimensions => { s with dimensions := true }
  | .FileName => { s with fileName := true }

/-- EnumSet::remove (clear the flag of the given tag). -/
def TagSet.remove (s : TagSet) (t : Tag) : TagSet :=
  match t with
  | .Description => { s with description := false }
  | .Date => { s with date := false }
  | .Dimensions => { s with dimensions := false }
  | .FileName => { s with fileName := false }

/-- EnumSet::is_empty. -/
def TagSet.isEmpty (s : TagSet) : Bool :=
  !s.description && !s.date && !s.dimensions && !s.fileName

/-- chrono::NaiveDateTime, restricted to the calendar fields the program
formats and parses (the code never uses sub-second precision). -/
structure NaiveDateTime where
  year : Nat
  month : Nat
  day : Nat
  hour : Nat
  minute : Nat
  second : Nat
deriving DecidableEq, Repr

/-- Zero-pad a numeral to two digits (chrono %m, %d, %H, %M, %S). -/
def pad2 (n : Nat) : String :=
  if n < 10 then "0" ++ toString n else toString n

/-- Zero-pad a numeral to four digits (chrono %Y on years 0..9999). -/
def pad4 (n : Nat) : String :=
  if n < 10 then "000" ++ toString n
  else if n < 100 then "00" ++ toString n
  else if n < 1000 then "0" ++ toString n
  else toString n

/-- NaiveDateTime::format with "%Y:%m:%d %H:%M:%S"
(ExifConversion::to_exif_string in src/src/metadata.rs). -/
def NaiveDateTime.toExifString (d : NaiveDateTime) : String :=
  pad4 d.year ++ ":" ++ pad2 d.month ++ ":" ++ pad2 d.day ++ " " ++
    pad2 d.hour ++ ":" ++ pad2 d.minute ++ ":" ++ pad2 d.second

/-- NaiveDateTime::format with "%Y_%m_%d-%H_%M_%S" (the target-file-name
stem computed in Metadata::save). -/
def NaiveDateTime.formatFileName (d : NaiveDateTime) : String :=
  pad4 d.year ++ "_" ++ pad2 d.month ++ "_" ++ pad2 d.day ++ "-" ++
    pad2 d.hour ++ "_" ++ pad2 d.minute ++ "_" ++ pad2 d.second

/-- Gregorian leap-year rule, used to validate parsed dates. -/
def isLeapYear (y : Nat) : Bool :=
  (y % 4 = 0 && !(y % 100 = 0)) || y % 400 = 0

/-- Days in a month of the proleptic Gregorian calendar. -/
def daysInMonth (y m : Nat) : Nat :=
  if m = 2 then (if isLeapYear y then 29 else 28)
  else if m = 4 ∨ m = 6 ∨ m = 9 ∨ m = 11 then 30
  else 31

/-- Decimal value of a digit character. -/
def digitVal (c : Char) : Nat := c.toNat - 48

/-- Modelled from the spec: the external chrono parser invoked by
ExifConversion::from_exif_string with the fixed format
"%Y:%m:%d %H:%M:%S" (chrono is an external crate, not under src/).
Accepts exactly the 19-character strings YYYY:MM:DD HH:MM:SS denoting a
valid calendar date and time of day.  The claims proved below depend only
on whether this returns none or some, never on the exact accepted set. -/
def NaiveDateTime.fromExifString (s : String) : Option NaiveDateTime :=
  match s.toList with
  | [y1, y2, y3, y4, c1, o1, o2, c2, d1, d2, sp, h1, h2, c3, i1, i2, c4, e1, e2] =>
    if c1 = ':' ∧ c2 = ':' ∧ sp = ' ' ∧ c3 = ':' ∧ c4 = ':' ∧
        y1.isDigit ∧ y2.isDigit ∧ y3.isDigit ∧ y4.isDigit ∧
        o1.isDigit ∧ o2.isDigit ∧ d1.isDigit ∧ d2.isDigit ∧
        h1.isDigit ∧ h2.isDigit ∧ i1.isDigit ∧ i2.isDigit ∧
        e1.isDigit ∧ e2.isDigit then
      let year := 1000 * digitVal y1 + 100 * digitVal y2 + 10 * digitVal y3 + digitVal y4
      let month := 10 * digitVal o1 + digitVal o2
      let day := 10 * digitVal d1 + digitVal d2
      let hour := 10 * digitVal h1 + digitVal h2
      let minute := 10 * digitVal i1 + digitVal i2
      let second := 10 * digitVal e1 + digitVal e2
      if 1 ≤ month ∧ month ≤ 12 ∧ 1 ≤ day ∧ day ≤ daysInMonth year month ∧
          hour ≤ 23 ∧ minute ≤ 59 ∧ second ≤ 59 then
        some ⟨year, month, day, hour, minute, second⟩
      else none
    else none
  | _ => none

/-- A filesystem path, split as Rust's PathBuf is used by the aggregate:
a parent part (never touched) and the final component.  Loaded image files
always have a final component, so file_name() is total here. -/
structure FilePath where
  dir : String
  fileName : String
deriving DecidableEq, Repr

/-- Path::with_file_name - replace the final component. -/
def FilePath.withFileName (p : FilePath) (name : String) : FilePath :=
  { p with fileName := name }

/-- Path::extension - the part of the final component after its last dot;
none when there is no dot, or when the only dot is the leading character
(hidden-file rule), matching Rust's std::path semantics. -/
def FilePath.extension (p : FilePath) : Option String :=
  let rev := p.fileName.toList.reverse
  match rev.dropWhile (fun c => c ≠ '.') with
  | [] => none
  | _ :: rest =>
    if rest = [] then none
    else some (String.mk ((rev.takeWhile (fun c => c ≠ '.')).reverse))

/-- The EXIF tag identifiers the aggregate reads or writes through the
codec (little_exif's ExifTag variants used in src/src/metadata.rs). -/
inductive ExifTagId
  | ImageDescription
  | DateTimeOriginal
  | CreateDate
  | ExifImageWidth
  | ExifImageHeight
deriving DecidableEq, Repr

/-- A decoded tag value: the aggregate only stores strings (description,
dates) and u32 numbers (EXIF dimensions). -/
inductive ExifValue
  | str (s : String)
  | u32 (n : Nat)
deriving DecidableEq, Repr

/-- little_exif::Metadata, the tag store: identifier/value pairs, queried
by first match. -/
def TagStore := List (ExifTagId × ExifValue)

instance : DecidableEq TagStore := by
  unfold TagStore
  infer_instance

/-- TagStore::set_tag - replace any entry of the same identifier with the
new value (little_exif removes matching tags then adds the new one). -/
def setTag (store : TagStore) (id : ExifTagId) (v : ExifValue) : TagStore :=
  store.filter (fun p => p.1 ≠ id) ++ [(id, v)]

/-- Metadata::get_tag_string - first matching tag, decoded as a string. -/
def getTagString (store : TagStore) (id : ExifTagId) : Option String :=
  match store.find? (fun p => p.1 = id) with
  | some (_, .str s) => some s
  | _ => none

/-- Metadata::get_tag_u32 - first matching tag, decoded as a u32. -/
def getTagU32 (store : TagStore) (id : ExifTagId) : Option Nat :=
  match store.find? (fun p => p.1 = id) with
  | some (_, .u32 n) => some n
  | _ => none

/-- The Metadata aggregate (struct Metadata in src/src/metadata.rs).
camera_info is omitted: it is derived once at load, is read-only, and no
modelled operation mentions it. -/
structure Metadata where
  path : FilePath
  litte_metadata : TagStore
  dimentions : Nat × Nat
  date : Option NaiveDateTime
  description : Option String
  modified_tags : TagSet
deriving DecidableEq

/-- Accessor width(). -/
def Metadata.width (m : Metadata) : Nat := m.dimentions.1

/-- Accessor height(). -/
def Metadata.height (m : Metadata) : Nat := m.dimentions.2

/-- The date extraction of Metadata::new: read DateTimeOriginal, fall back
to CreateDate only when the former is absent, then parse whatever string
was obtained (unparsable gives None, the fallback is not retried). -/
def loadDate (store : TagStore) : Option NaiveDateTime :=
  let date := (getTagString store .DateTimeOriginal).or (getTagString store .CreateDate)
  match date with
  | none => none
  | some strDate => NaiveDateTime.fromExifString strDate

/-- Metadata::new after its external gates (type sniffing, pixel-dimension
decoding and codec loading are collaborators; their successful results are
the arguments here).  Populates the fields and starts with an empty
Modified-Tag Set. -/
def Metadata.load (path : FilePath) (dims : Nat × Nat) (store : TagStore) : Metadata :=
  { path := path
    litte_metadata := store
    dimentions := dims
    date := loadDate store
    description := getTagString store .ImageDescription
    modified_tags := TagSet.empty }

/-- Metadata::set_description. -/
def Metadata.set_description (m : Metadata) (description : String) : Metadata :=
  if m.description ≠ some description then
    { m with
      description := some description
      modified_tags := m.modified_tags.insert Tag.Description
      litte_metadata := setTag m.litte_metadata .ImageDescription (.str description) }
  else m

/-- Metadata::set_date. -/
def Metadata.set_date (m : Metadata) (date : NaiveDateTime) : Metadata :=
  if m.date ≠ some date then
    { m with
      date := some date
      modified_tags := m.modified_tags.insert Tag.Date
      litte_metadata :=
        setTag (setTag m.litte_metadata .DateTimeOriginal (.str date.toExifString))
          .CreateDate (.str date.toExifString) }
  else m

/-- The error returned by Metadata::set_date_from_exif on a malformed
date string. -/
inductive DateParseError
  | parseError
deriving DecidableEq, Repr

/-- Metadata::set_date_from_exif - parse, and only on success delegate to
set_date; the paired state is the (possibly updated) aggregate. -/
def Metadata.set_date_from_exif (m : Metadata) (strDate : String) :
    Except DateParseError Unit × Metadata :=
  match NaiveDateTime.fromExifString strDate with
  | none => (Except.error DateParseError.parseError, m)
  | some date => (Except.ok (), m.set_date date)

/-- Metadata::fix_dimentions - compare the EXIF dimension tags with the
pixel dimensions read at load; stage corrections when they differ. -/
def Metadata.fix_dimentions (m : Metadata) : Bool × Metadata :=
  let exifWidth := getTagU32 m.litte_metadata .ExifImageWidth
  let exifHeight := getTagU32 m.litte_metadata .ExifImageHeight
  if exifWidth ≠ some m.width ∨ exifHeight ≠ some m.height then
    (true,
      { m with
        modified_tags := m.modified_tags.insert Tag.Dimensions
        litte_metadata :=
          setTag (setTag m.litte_metadata .ExifImageWidth (.u32 m.width))
            .ExifImageHeight (.u32 m.height) })
  else (false, m)

/-- Metadata::fix_file_name - only marks the FileName flag; the target
name is computed at save time. -/
def Metadata.fix_file_name (m : Metadata) : Metadata :=
  { m with modified_tags := m.modified_tags.insert Tag.FileName }

/-- The failures of Metadata::save: the fs::rename call or the codec
write_to_file call erroring. -/
inductive SaveError
  | renameError
  | tagWriteError
deriving DecidableEq, Repr

/-- A disk effect performed by save, in order of occurrence. -/
inductive IOEvent
  | renameFile (oldPath newPath : FilePath)
  | tagWrite (path : FilePath)
deriving DecidableEq, Repr

/-- The external collaborators of save: whether fs::rename succeeds for a
given pair of paths, whether the codec whole-file write succeeds at a
given path, and the sanitise_file_name::sanitise function. -/
structure SaveEnv where
  renameOk : FilePath → FilePath → Bool
  writeOk : FilePath → Bool
  sanitise : String → String

/-- The target file name computed in Metadata::save for a staged FileName
fix: date as %Y_%m_%d-%H_%M_%S, then " - <description>" when a description
is present, then the original extension, then sanitised. -/
def Metadata.targetFileName (env : SaveEnv) (m : Metadata) (date : NaiveDateTime) : String :=
  let base := date.formatFileName
  let base :=
    match m.description with
    | some d => base ++ " - " ++ d
    | none => base
  let base :=
    match m.path.extension with
    | some ext => base ++ "." ++ ext
    | none => base
  env.sanitise base

/-- The filename-handling block at the top of Metadata::save (the body of
the `if self.modified_tags.contains(Tag::FileName)` statement): returns an
error when the rename failed, the state after the block, and the I/O
performed. -/
def Metadata.saveFileNameStep (env : SaveEnv) (m : Metadata) :
    Option SaveError × Metadata × List IOEvent :=
  if m.modified_tags.contains Tag.FileName then
    match m.date with
    | none =>
      (none, { m with modified_tags := m.modified_tags.remove Tag.FileName }, [])
    | some date =>
      let target := m.targetFileName env date
      if target ≠ m.path.fileName then
        let newPath := m.path.withFileName target
        if env.renameOk m.path newPath then
          (none, { m with path := newPath }, [IOEvent.renameFile m.path newPath])
        else
          (some SaveError.renameError, m, [IOEvent.renameFile m.path newPath])
      else
        (none, { m with modified_tags := m.modified_tags.remove Tag.FileName }, [])
  else (none, m, [])

/-- Metadata::save: no-op on an empty Modified-Tag Set; otherwise the
filename step, then (unless that step errored) the codec whole-file tag
write at the current path, then snapshot-and-clear of the set. -/
def Metadata.save (env : SaveEnv) (m : Metadata) :
    Except SaveError TagSet × Metadata × List IOEvent :=
  if m.modified_tags.isEmpty then
    (Except.ok TagSet.empty, m, [])
  else
    match m.saveFileNameStep env with
    | (some e, m1, evs) => (Except.error e, m1, evs)
    | (none, m1, evs) =>
      if env.writeOk m1.path then
        (Except.ok m1.modified_tags, { m1 with modified_tags := TagSet.empty },
          evs ++ [IOEvent.tagWrite m1.path])
      else
        (Except.error SaveError.tagWriteError, m1, evs ++ [IOEvent.tagWrite m1.path])

/-- The flash-code decoding table of Metadata::flash_code_to_string: the
27 match arms with a named label, in source order. -/
def flashTable : List (Nat × String) :=
  [(0x00, "No Flash"),
   (0x01, "Fired"),
   (0x05, "Fired, Return not detected"),
   (0x07, "Fired, Return detected"),
   (0x08, "On, Did not fire"),
   (0x09, "On, Fired"),
   (0x0d, "On, Return not detected"),
   (0x0f, "On, Return detected"),
   (0x10, "Off, Did not fire"),
   (0x14, "Off, Did not fire, Return not detected"),
   (0x18, "Auto, Did not fire"),
   (0x19, "Auto, Fired"),
   (0x1d, "Auto, Fired, Return not detected"),
   (0x1f, "Auto, Fired, Return detected"),
   (0x20, "No flash function"),
   (0x30, "Off, No flash function"),
   (0x41, "Fired, Red-eye reduction"),
   (0x45, "Fired, Red-eye reduction, Return not detected"),
   (0x47, "Fired, Red-eye reduction, Return detected"),
   (0x49, "On, Red-eye reduction"),
   (0x4d, "On, Red-eye reduction, Return not detected"),
   (0x4f, "On, Red-eye reduction, Return detected"),
   (0x50, "Off, Red-eye reduction"),
   (0x58, "Auto, Did not fire, Red-eye reduction"),
   (0x59, "Auto, Fired, Red-eye reduction"),
   (0x5d, "Auto, Fired, Red-eye reduction, Return not detected"),
   (0x5f, "Auto, Fired, Red-eye reduction, Return detected")]

/-- The raw codes the table knows (the non-wildcard match arms). -/
def knownFlashCodes : List Nat := flashTable.map Prod.fst

/-- Metadata::flash_code_to_string: the match is a first-match lookup in
the fixed table, with the wildcard arm as default. -/
def flash_code_to_string (flashCode : Nat) : String :=
  match flashTable.lookup flashCode with
  | some s => s
  | none => "Unknown flash code"

/-- Does an event write tags to the file? -/
def IOEvent.isTagWrite : IOEvent → Bool
  | .tagWrite _ => true
  | .renameFile _ _ => false

/-! ## Concrete fixtures used by witnesses and counterexamples -/

/-- Collaborators where every call succeeds; sanitising keeps names
unchanged. -/
def envAllOk : SaveEnv := ⟨fun _ _ => true, fun _ => true, fun s => s⟩

/-- Collaborators where fs::rename always fails. -/
def envRenameFails : SaveEnv := ⟨fun _ _ => false, fun _ => true, fun s => s⟩

/-- Collaborators where the codec whole-file write always fails. -/
def envWriteFails : SaveEnv := ⟨fun _ _ => true, fun _ => false, fun s => s⟩

/-- The capture date of the repository's test image. -/
def sampleDate : NaiveDateTime := ⟨2006, 10, 29, 16, 27, 21⟩

/-- A sample current location of a loaded image. -/
def samplePath : FilePath := ⟨"/photos", "a.jpg"⟩

/-- A sample tag store holding only a description. -/
def sampleStore : TagStore := [(ExifTagId.ImageDescription, ExifValue.str "A fun picture!")]

/-- A freshly loaded-looking aggregate: dated, no staged change. -/
def mSample : Metadata :=
  { path := samplePath
    litte_metadata := sampleStore
    dimentions := (2048, 1536)
    date := some sampleDate
    description := none
    modified_tags := TagSet.empty }

/-- The sample aggregate with only the FileName flag staged. -/
def mFileNameStaged : Metadata :=
  { mSample with modified_tags := ⟨false, false, false, true⟩ }

/-- An aggregate with no date and with Description and FileName staged. -/
def mNoDateStaged : Metadata :=
  { mSample with date := none, modified_tags := ⟨true, false, false, true⟩ }

/-- The dated sample aggregate with Date and FileName staged. -/
def mDateNameStaged : Metadata :=
  { mSample with modified_tags := ⟨false, true, false, true⟩ }

/-- The sample aggregate with its date removed. -/
def mNoDate : Metadata := { mSample with date := none }

/-! ## Helper lemmas about the tag store and the modified-tag set -/

theorem TagSet.isEmpty_iff (s : TagSet) : s.isEmpty = true ↔ s = TagSet.empty := by
  obtain ⟨a, b, c, d⟩ := s
  simp [TagSet.isEmpty, TagSet.empty, and_assoc]

theorem find?_setTag_self (st : TagStore) (id : ExifTagId) (v : ExifValue) :
    (setTag st id v).find? (fun p => p.1 = id) = some (id, v) := by
  induction st with
  | nil => simp [setTag]
  | cons a st ih =>
    by_cases h : a.1 = id
    · simp [setTag, List.filter_cons, h] at ih ⊢
    · simp [setTag, List.filter_cons, List.find?_cons, h] at ih ⊢

theorem find?_setTag_other (st : TagStore) (id1 id2 : ExifTagId) (v : ExifValue)
    (h : id1 ≠ id2) :
    (setTag st id2 v).find? (fun p => p.1 = id1) = st.find? (fun p => p.1 = id1) := by
  have h2 : id2 ≠ id1 := Ne.symm h
  induction st with
  | nil => simp [setTag, List.find?, h2]
  | cons a st ih =>
    by_cases ha : a.1 = id2
    · have ha1 : ¬(a.1 = id1) := by rw [ha]; exact h2
      rw [show setTag (a :: st) id2 v = setTag st id2 v by
        simp [setTag, List.filter_cons, ha]]
      rw [ih, List.find?_cons_of_neg _ (by simp [ha1])]
    · by_cases hb : a.1 = id1
      · rw [show setTag (a :: st) id2 v = a :: setTag st id2 v by
          simp [setTag, List.filter_cons, ha]]
        rw [List.find?_cons_of_pos _ (by simp [hb]),
          List.find?_cons_of_pos _ (by simp [hb])]
      · rw [show setTag (a :: st) id2 v = a :: setTag st id2 v by
          simp [setTag, List.filter_cons, ha]]
        rw [List.find?_cons_of_neg _ (by simp [hb]),
          List.find?_cons_of_neg _ (by simp [hb]), ih]

theorem getTagString_setTag_self (st : TagStore) (id : ExifTagId) (s : String) :
    getTagString (setTag st id (ExifValue.str s)) id = some s := by
  simp [getTagString, find?_setTag_self]

theorem getTagString_setTag_other (st : TagStore) (id1 id2 : ExifTagId) (v : ExifValue)
    (h : id1 ≠ id2) :
    getTagString (setTag st id2 v) id1 = getTagString st id1 := by
  simp [getTagString, find?_setTag_other st id1 id2 v h]

theorem lookup_none_of_not_mem_keys (t : List (Nat × String)) (c : Nat)
    (h : c ∉ t.map Prod.fst) : t.lookup c = none := by
  induction t with
  | nil => rfl
  | cons a t ih =>
    simp only [List.map_cons, List.mem_cons, not_or] at h
    obtain ⟨h1, h2⟩ := h
    simp [List.lookup, beq_eq_false_iff_ne.mpr h1, ih h2]

/-! ## Claim theorems -/

/-- C5: fix_dimentions returns true and inserts the Dimensions bit exactly
when the EXIF width/height tags differ from the pixel dimensions read at
load (an absent tag counts as a mismatch); in that case it stages writes of
the true pixel width and height, and otherwise it changes nothing and
returns false. -/
theorem fix_dimentions_spec (m : Metadata) :
    ((m.fix_dimentions.1 = true) ↔
      ¬(getTagU32 m.litte_metadata ExifTagId.ExifImageWidth = some m.width ∧
        getTagU32 m.litte_metadata ExifTagId.ExifImageHeight = some m.height)) ∧
    (¬(getTagU32 m.litte_metadata ExifTagId.ExifImageWidth = some m.width ∧
        getTagU32 m.litte_metadata ExifTagId.ExifImageHeight = some m.height) →
      m.fix_dimentions =
        (true,
          { m with
            modified_tags := m.modified_tags.insert Tag.Dimensions
            litte_metadata :=
              setTag (setTag m.litte_metadata ExifTagId.ExifImageWidth (ExifValue.u32 m.width))
                ExifTagId.ExifImageHeight (ExifValue.u32 m.height) })) ∧
    ((getTagU32 m.litte_metadata ExifTagId.ExifImageWidth = some m.width ∧
        getTagU32 m.litte_metadata ExifTagId.ExifImageHeight = some m.height) →
      m.fix_dimentions = (false, m)) := by
  by_cases h : getTagU32 m.litte_metadata ExifTagId.ExifImageWidth = some m.width ∧
      getTagU32 m.litte_metadata ExifTagId.ExifImageHeight = some m.height
  · refine ⟨?_, fun hc => absurd h hc, fun _ => ?_⟩ <;>
      simp [Metadata.fix_dimentions, h.1, h.2]
  · have h' : getTagU32 m.litte_metadata ExifTagId.ExifImageWidth ≠ some m.width ∨
        getTagU32 m.litte_metadata ExifTagId.ExifImageHeight ≠ some m.height := by
      tauto
    refine ⟨?_, fun _ => ?_, fun hc => absurd hc h⟩ <;>
      simp [Metadata.fix_dimentions, h', h]

/-- C6: set_description with the current value is a no-op, so a second
call with the same string changes nothing and the Description bit is
flipped at most once. -/
theorem set_description_idempotent (m : Metadata) (x : String) :
    (m.description = some x → m.set_description x = m) ∧
    (m.set_description x).set_description x = m.set_description x := by
  constructor
  · intro h
    simp [Metadata.set_description, h]
  · by_cases h : m.description = some x
    · simp [Metadata.set_description, h]
    · simp [Metadata.set_description, h]

/-- C7: set_date_from_exif fails with a parse error and leaves the whole
aggregate unchanged on an unparsable string, and on a parsable string it
behaves exactly as set_date on the parsed timestamp, which (when the date
actually changes) stages both the DateTimeOriginal and the CreateDate
tags. -/
theorem set_date_from_exif_spec (m : Metadata) (s : String) :
    (NaiveDateTime.fromExifString s = none →
      m.set_date_from_exif s = (Except.error DateParseError.parseError, m)) ∧
    (∀ d, NaiveDateTime.fromExifString s = some d →
      m.set_date_from_exif s = (Except.ok (), m.set_date d) ∧
      (m.date ≠ some d →
        getTagString (m.set_date d).litte_metadata ExifTagId.DateTimeOriginal =
          some d.toExifString ∧
        getTagString (m.set_date d).litte_metadata ExifTagId.CreateDate =
          some d.toExifString)) := by
  constructor
  · intro h
    simp [Metadata.set_date_from_exif, h]
  · intro d hd
    refine ⟨by simp [Metadata.set_date_from_exif, hd], fun hne => ?_⟩
    constructor
    · simp only [Metadata.set_date, if_pos hne]
      rw [getTagString_setTag_other _ _ _ _ (by simp), getTagString_setTag_self]
    · simp only [Metadata.set_date, if_pos hne]
      rw [getTagString_setTag_self]

/-- C9: the load-time date fallback is decided by tag presence alone: a
present-but-unparsable DateTimeOriginal yields date None without consulting
CreateDate, and CreateDate is parsed only when DateTimeOriginal is entirely
absent. -/
theorem load_date_fallback_by_presence (store : TagStore) (s : String) :
    (getTagString store ExifTagId.DateTimeOriginal = some s →
      NaiveDateTime.fromExifString s = none → loadDate store = none) ∧
    (getTagString store ExifTagId.DateTimeOriginal = none →
      loadDate store =
        (getTagString store ExifTagId.CreateDate).bind NaiveDateTime.fromExifString) ∧
    (∀ path dims, (Metadata.load path dims store).date = loadDate store) := by
  refine ⟨fun h hp => ?_, fun h => ?_, fun path dims => rfl⟩
  · simp [loadDate, h, Option.or, hp]
  · cases hc : getTagString store ExifTagId.CreateDate <;>
      simp [loadDate, h, hc, Option.or]

/-- C8 counterexample: the flash lookup table has 27 pairwise-distinct
known codes, each rendering as a label other than the generic unknown one -
not 26 as the claim states. -/
theorem flash_table_has_27_codes :
    knownFlashCodes.length = 27 ∧ knownFlashCodes.Nodup ∧
    (knownFlashCodes.all fun c => flash_code_to_string c != "Unknown flash code") = true := by
  decide

/-- C8 (amended): the flash field is decoded from a fixed lookup table of
exactly 27 known codes, and every code outside the table renders as the
single generic unknown label. -/
theorem flash_unknown_codes_spec :
    knownFlashCodes.length = 27 ∧ knownFlashCodes.Nodup ∧
    (∀ c ∈ knownFlashCodes, flash_code_to_string c ≠ "Unknown flash code") ∧
    (∀ c : Nat, c ∉ knownFlashCodes → flash_code_to_string c = "Unknown flash code") := by
  refine ⟨by decide, by decide, by decide, fun c hc => ?_⟩
  unfold flash_code_to_string
  rw [lookup_none_of_not_mem_keys flashTable c hc]

/-! ## Helper lemmas about the save transaction -/

theorem TagSet.isEmpty_false_of_contains (s : TagSet) (t : Tag)
    (h : s.contains t = true) : s.isEmpty = false := by
  obtain ⟨a, b, c, d⟩ := s
  cases t <;> simp_all [TagSet.contains, TagSet.isEmpty]

theorem TagSet.isEmpty_false_of_ne (s : TagSet) (h : s ≠ TagSet.empty) :
    s.isEmpty = false := by
  cases he : s.isEmpty
  · rfl
  · exact absurd ((TagSet.isEmpty_iff s).mp he) h

theorem saveFileNameStep_cases (env : SaveEnv) (m : Metadata) :
    (m.modified_tags.contains Tag.FileName = false ∧
      m.saveFileNameStep env = (none, m, [])) ∨
    (m.modified_tags.contains Tag.FileName = true ∧ m.date = none ∧
      m.saveFileNameStep env =
        (none, { m with modified_tags := m.modified_tags.remove Tag.FileName }, [])) ∨
    (∃ d, m.modified_tags.contains Tag.FileName = true ∧ m.date = some d ∧
      m.targetFileName env d = m.path.fileName ∧
      m.saveFileNameStep env =
        (none, { m with modified_tags := m.modified_tags.remove Tag.FileName }, [])) ∨
    (∃ d, m.modified_tags.contains Tag.FileName = true ∧ m.date = some d ∧
      m.targetFileName env d ≠ m.path.fileName ∧
      env.renameOk m.path (m.path.withFileName (m.targetFileName env d)) = true ∧
      m.saveFileNameStep env =
        (none, { m with path := m.path.withFileName (m.targetFileName env d) },
          [IOEvent.renameFile m.path (m.path.withFileName (m.targetFileName env d))])) ∨
    (∃ d, m.modified_tags.contains Tag.FileName = true ∧ m.date = some d ∧
      m.targetFileName env d ≠ m.path.fileName ∧
      env.renameOk m.path (m.path.withFileName (m.targetFileName env d)) = false ∧
      m.saveFileNameStep env =
        (some SaveError.renameError, m,
          [IOEvent.renameFile m.path (m.path.withFileName (m.targetFileName env d))])) := by
  cases hfn : m.modified_tags.contains Tag.FileName
  · exact Or.inl ⟨rfl, by simp [Metadata.saveFileNameStep, hfn]⟩
  · cases hd : m.date with
    | none =>
      exact Or.inr (Or.inl ⟨rfl, rfl, by simp [Metadata.saveFileNameStep, hfn, hd]⟩)
    | some d =>
      by_cases ht : m.targetFileName env d = m.path.fileName
      · exact Or.inr (Or.inr (Or.inl ⟨d, rfl, rfl, ht,
          by simp [Metadata.saveFileNameStep, hfn, hd, ht]⟩))
      · cases hr : env.renameOk m.path (m.path.withFileName (m.targetFileName env d))
        · exact Or.inr (Or.inr (Or.inr (Or.inr ⟨d, rfl, rfl, ht, hr,
            by simp [Metadata.saveFileNameStep, hfn, hd, ht, hr]⟩)))
        · exact Or.inr (Or.inr (Or.inr (Or.inl ⟨d, rfl, rfl, ht, hr,
            by simp [Metadata.saveFileNameStep, hfn, hd, ht, hr]⟩)))

theorem saveFileNameStep_modified (env : SaveEnv) (m : Metadata) :
    (m.saveFileNameStep env).2.1.modified_tags = m.modified_tags ∨
    (m.saveFileNameStep env).2.1.modified_tags = m.modified_tags.remove Tag.FileName := by
  rcases saveFileNameStep_cases env m with
    ⟨_, h⟩ | ⟨_, _, h⟩ | ⟨d, _, _, _, h⟩ | ⟨d, _, _, _, _, h⟩ | ⟨d, _, _, _, _, h⟩ <;>
    rw [h] <;> simp

/-- C3: save on an empty Modified-Tag Set returns an empty set, performs
no I/O and leaves the aggregate unchanged; in particular load immediately
followed by save is a zero-I/O no-op returning the empty set. -/
theorem save_empty_modified_set_noop (env : SaveEnv) (m : Metadata)
    (path : FilePath) (dims : Nat × Nat) (store : TagStore)
    (h : m.modified_tags = TagSet.empty) :
    Metadata.save env m = (Except.ok TagSet.empty, m, []) ∧
    Metadata.save env (Metadata.load path dims store) =
      (Except.ok TagSet.empty, Metadata.load path dims store, []) := by
  constructor
  · simp [Metadata.save, h, TagSet.isEmpty, TagSet.empty]
  · simp [Metadata.save, Metadata.load, TagSet.isEmpty, TagSet.empty]

/-- C3 witness at a concrete aggregate and store. -/
theorem save_empty_modified_set_noop_witness :
    mSample.modified_tags = TagSet.empty ∧
    Metadata.save envAllOk mSample = (Except.ok TagSet.empty, mSample, []) ∧
    Metadata.save envAllOk (Metadata.load samplePath (2048, 1536) sampleStore) =
      (Except.ok TagSet.empty, Metadata.load samplePath (2048, 1536) sampleStore, []) :=
  ⟨rfl,
   (save_empty_modified_set_noop envAllOk mSample samplePath (2048, 1536) sampleStore rfl).1,
   (save_empty_modified_set_noop envAllOk mSample samplePath (2048, 1536) sampleStore rfl).2⟩

/-- C4: with no date, fix_file_name followed by a save whose tag write
succeeds drops the FileName bit: no rename happens, the path is unchanged,
and the returned set lacks FileName (empty when FileName was the only
staged change). -/
theorem save_without_date_drops_filename (env : SaveEnv) (m : Metadata)
    (hd : m.date = none) (hw : env.writeOk m.path = true) :
    Metadata.save env m.fix_file_name =
      (Except.ok (m.modified_tags.remove Tag.FileName),
        { m with modified_tags := TagSet.empty }, [IOEvent.tagWrite m.path]) ∧
    (m.modified_tags.remove Tag.FileName).contains Tag.FileName = false ∧
    (m.modified_tags = TagSet.empty → m.modified_tags.remove Tag.FileName = TagSet.empty) := by
  obtain ⟨p, lm, dim, dt, desc, mt⟩ := m
  obtain ⟨a, b, c, d⟩ := mt
  simp only at hd hw
  subst hd
  refine ⟨?_, rfl, ?_⟩
  · simp [Metadata.save, Metadata.fix_file_name, Metadata.saveFileNameStep,
      TagSet.insert, TagSet.contains, TagSet.isEmpty, TagSet.remove, hw]
  · intro h
    simp [TagSet.empty] at h
    simp [TagSet.remove, TagSet.empty, h]

/-- C4 witness: the dateless sample aggregate under always-succeeding
collaborators. -/
theorem save_without_date_drops_filename_witness :
    mNoDate.date = none ∧ envAllOk.writeOk mNoDate.path = true ∧
    Metadata.save envAllOk mNoDate.fix_file_name =
      (Except.ok (mNoDate.modified_tags.remove Tag.FileName),
        { mNoDate with modified_tags := TagSet.empty }, [IOEvent.tagWrite mNoDate.path]) :=
  ⟨rfl, rfl, (save_without_date_drops_filename envAllOk mNoDate rfl rfl).1⟩

/-- C1: when the FileName bit is staged, a date is present, the computed
target name differs from the current one and the filesystem rename fails,
save returns RenameError, the aggregate (Modified-Tag Set included) is
left fully intact, and the only I/O attempted is the rename: no tag write
is performed. -/
theorem save_rename_failure_aborts_save (env : SaveEnv) (m : Metadata) (d : NaiveDateTime)
    (hfn : m.modified_tags.contains Tag.FileName = true)
    (hd : m.date = some d)
    (ht : m.targetFileName env d ≠ m.path.fileName)
    (hr : env.renameOk m.path (m.path.withFileName (m.targetFileName env d)) = false) :
    Metadata.save env m =
      (Except.error SaveError.renameError, m,
        [IOEvent.renameFile m.path (m.path.withFileName (m.targetFileName env d))]) := by
  have hne : m.modified_tags.isEmpty = false := TagSet.isEmpty_false_of_contains _ _ hfn
  simp [Metadata.save, hne, Metadata.saveFileNameStep, hfn, hd, ht, hr]

/-- C1 witness: the staged sample aggregate under a failing rename. -/
theorem save_rename_failure_aborts_save_witness :
    mFileNameStaged.modified_tags.contains Tag.FileName = true ∧
    mFileNameStaged.date = some sampleDate ∧
    mFileNameStaged.targetFileName envRenameFails sampleDate ≠ mFileNameStaged.path.fileName ∧
    Metadata.save envRenameFails mFileNameStaged =
      (Except.error SaveError.renameError, mFileNameStaged,
        [IOEvent.renameFile mFileNameStaged.path
          (mFileNameStaged.path.withFileName
            (mFileNameStaged.targetFileName envRenameFails sampleDate))]) :=
  ⟨rfl, rfl, by decide,
   save_rename_failure_aborts_save envRenameFails mFileNameStaged sampleDate rfl rfl
     (by decide) rfl⟩

/-- C2 counterexample: with Description and FileName staged but no date,
a failing codec write makes save return TagWriteError with a Modified-Tag
Set different from the one at entry (the FileName bit was dropped by the
filename step before the write). -/
theorem save_tag_write_failure_set_changed :
    (Metadata.save envWriteFails mNoDateStaged).1 = Except.error SaveError.tagWriteError ∧
    (Metadata.save envWriteFails mNoDateStaged).2.1.modified_tags ≠
      mNoDateStaged.modified_tags := by
  refine ⟨rfl, by decide⟩

/-- C2 (amended): when the codec tag write fails after a non-erroring
filename step, save returns TagWriteError and the Modified-Tag Set is left
as it stood after the filename step: either exactly the entry set, or the
entry set with only the FileName bit dropped; the other bits are always
intact. -/
theorem save_tag_write_failure_keeps_staged_bits (env : SaveEnv) (m : Metadata)
    (hne : m.modified_tags.isEmpty = false)
    (hstep : (m.saveFileNameStep env).1 = none)
    (hw : env.writeOk (m.saveFileNameStep env).2.1.path = false) :
    Metadata.save env m =
      (Except.error SaveError.tagWriteError, (m.saveFileNameStep env).2.1,
        (m.saveFileNameStep env).2.2 ++
          [IOEvent.tagWrite (m.saveFileNameStep env).2.1.path]) ∧
    ((Metadata.save env m).2.1.modified_tags = m.modified_tags ∨
      (Metadata.save env m).2.1.modified_tags = m.modified_tags.remove Tag.FileName) := by
  have hmod := saveFileNameStep_modified env m
  rcases hs : m.saveFileNameStep env with ⟨oe, m1, evs⟩
  rw [hs] at hstep hw hmod
  simp only at hstep hw hmod
  subst hstep
  have hsave : Metadata.save env m =
      (Except.error SaveError.tagWriteError, m1, evs ++ [IOEvent.tagWrite m1.path]) := by
    simp [Metadata.save, hne, hs, hw]
  exact ⟨by simpa [hs] using hsave, by rw [hsave]; exact hmod⟩

/-- C2 witness: the amended statement at the counterexample scenario. -/
theorem save_tag_write_failure_keeps_staged_bits_witness :
    mNoDateStaged.modified_tags.isEmpty = false ∧
    (mNoDateStaged.saveFileNameStep envWriteFails).1 = none ∧
    envWriteFails.writeOk (mNoDateStaged.saveFileNameStep envWriteFails).2.1.path = false ∧
    ((Metadata.save envWriteFails mNoDateStaged).2.1.modified_tags =
        mNoDateStaged.modified_tags ∨
      (Metadata.save envWriteFails mNoDateStaged).2.1.modified_tags =
        mNoDateStaged.modified_tags.remove Tag.FileName) :=
  ⟨rfl, rfl, rfl,
   (save_tag_write_failure_keeps_staged_bits envWriteFails mNoDateStaged rfl rfl rfl).2⟩

/-- C10 counterexample: entered with a non-empty Modified-Tag Set (Date
and FileName staged) but a failing rename, save performs no tag write at
all: the claim that the whole-file tag write is performed unconditionally
on every non-empty entry set is false. -/
theorem save_nonempty_write_skipped_counterexample :
    mDateNameStaged.modified_tags ≠ TagSet.empty ∧
    Metadata.save envRenameFails mDateNameStaged =
      (Except.error SaveError.renameError, mDateNameStaged,
        [IOEvent.renameFile mDateNameStaged.path
          (mDateNameStaged.path.withFileName "2006_10_29-16_27_21.jpg")]) ∧
    ((Metadata.save envRenameFails mDateNameStaged).2.2.all
      fun e => ! e.isTagWrite) = true := by
  refine ⟨by decide, rfl, by decide⟩

/-- C10 (amended): on a non-empty entry set, save either fails with
RenameError or performs the codec whole-file tag write - in particular the
write is performed whenever the staged bits are dropped during the
filename step (no date, or target name equal to the current one) - and it
always performs at least one I/O operation; only an entry set that is
already empty skips all I/O. -/
theorem save_nonempty_always_writes_or_rename_fails (env : SaveEnv) (m : Metadata) :
    (m.modified_tags = TagSet.empty → (Metadata.save env m).2.2 = []) ∧
    (m.modified_tags ≠ TagSet.empty →
      (Metadata.save env m).2.2 ≠ [] ∧
      ((Metadata.save env m).1 = Except.error SaveError.renameError ∨
        IOEvent.tagWrite (Metadata.save env m).2.1.path ∈ (Metadata.save env m).2.2)) ∧
    (m.modified_tags ≠ TagSet.empty → m.date = none →
      IOEvent.tagWrite (Metadata.save env m).2.1.path ∈ (Metadata.save env m).2.2) ∧
    (∀ d, m.modified_tags ≠ TagSet.empty → m.date = some d →
      m.targetFileName env d = m.path.fileName →
      IOEvent.tagWrite (Metadata.save env m).2.1.path ∈ (Metadata.save env m).2.2) := by
  refine ⟨fun h => ?_, fun h => ?_, fun h hd => ?_, fun d h hd ht => ?_⟩
  · simp [Metadata.save, (TagSet.isEmpty_iff m.modified_tags).mpr h]
  · have hne := TagSet.isEmpty_false_of_ne m.modified_tags h
    rcases saveFileNameStep_cases env m with
      ⟨_, hs⟩ | ⟨_, _, hs⟩ | ⟨e, _, _, _, hs⟩ | ⟨e, _, _, _, _, hs⟩ | ⟨e, _, _, _, _, hs⟩ <;>
      cases hw : env.writeOk (m.saveFileNameStep env).2.1.path <;>
      rw [hs] at hw <;>
      simp [Metadata.save, hne, hs, hw]
  · have hne := TagSet.isEmpty_false_of_ne m.modified_tags h
    rcases saveFileNameStep_cases env m with
      ⟨_, hs⟩ | ⟨_, _, hs⟩ | ⟨e, _, he, _, hs⟩ | ⟨e, _, he, _, _, hs⟩ | ⟨e, _, he, _, _, hs⟩
    · cases hw : env.writeOk (m.saveFileNameStep env).2.1.path <;>
        rw [hs] at hw <;> simp [Metadata.save, hne, hs, hw]
    · cases hw : env.writeOk (m.saveFileNameStep env).2.1.path <;>
        rw [hs] at hw <;> simp [Metadata.save, hne, hs, hw]
    · rw [hd] at he; exact absurd he (by simp)
    · rw [hd] at he; exact absurd he (by simp)
    · rw [hd] at he; exact absurd he (by simp)
  · have hne := TagSet.isEmpty_false_of_ne m.modified_tags h
    rcases saveFileNameStep_cases env m with
      ⟨_, hs⟩ | ⟨_, hd2, hs⟩ | ⟨e, _, he, _, hs⟩ | ⟨e, _, he, hte, _, hs⟩ |
      ⟨e, _, he, hte, _, hs⟩
    · cases hw : env.writeOk (m.saveFileNameStep env).2.1.path <;>
        rw [hs] at hw <;> simp [Metadata.save, hne, hs, hw]
    · rw [hd] at hd2; cases hd2
    · cases hw : env.writeOk (m.saveFileNameStep env).2.1.path <;>
        rw [hs] at hw <;> simp [Metadata.save, hne, hs, hw]
    · rw [hd] at he
      have : d = e := by injection he
      subst this
      exact absurd ht hte
    · rw [hd] at he
      have : d = e := by injection he
      subst this
      exact absurd ht hte

/-- C10 witness: with no date and Description plus FileName staged, every
bit that drives the filename step is dropped, yet the tag write happens. -/
theorem save_nonempty_always_writes_or_rename_fails_witness :
    mNoDateStaged.modified_tags ≠ TagSet.empty ∧ mNoDateStaged.date = none ∧
    IOEvent.tagWrite (Metadata.save envAllOk mNoDateStaged).2.1.path ∈
      (Metadata.save envAllOk mNoDateStaged).2.2 :=
  ⟨by decide, rfl,
   (save_nonempty_always_writes_or_rename_fails envAllOk mNoDateStaged).2.2.1
     (by decide) rfl⟩

/-- C5 witness: the sample store has no EXIF dimension tags, which counts
as a mismatch, so the fix is staged. -/
theorem fix_dimentions_spec_witness :
    ¬(getTagU32 mSample.litte_metadata ExifTagId.ExifImageWidth = some mSample.width ∧
      getTagU32 mSample.litte_metadata ExifTagId.ExifImageHeight = some mSample.height) ∧
    mSample.fix_dimentions =
      (true,
        { mSample with
          modified_tags := mSample.modified_tags.insert Tag.Dimensions
          litte_metadata :=
            setTag (setTag mSample.litte_metadata ExifTagId.ExifImageWidth
              (ExifValue.u32 mSample.width)) ExifTagId.ExifImageHeight
              (ExifValue.u32 mSample.height) }) :=
  ⟨by decide, (fix_dimentions_spec mSample).2.1 (by decide)⟩

/-- C6 witness: after one set_description the value is current, so the
repeated call is a no-op. -/
theorem set_description_idempotent_witness :
    (mSample.set_description "x").description = some "x" ∧
    (mSample.set_description "x").set_description "x" = mSample.set_description "x" :=
  ⟨rfl, (set_description_idempotent (mSample.set_description "x") "x").1 rfl⟩

/-- C7 witness: a truncated date string is rejected without mutation, and
a well-formed one delegates to set_date and stages both date tags. -/
theorem set_date_from_exif_spec_witness :
    NaiveDateTime.fromExifString "2001:01:01" = none ∧
    mSample.set_date_from_exif "2001:01:01" =
      (Except.error DateParseError.parseError, mSample) ∧
    NaiveDateTime.fromExifString "2001:02:03 04:05:06" =
      some ⟨2001, 2, 3, 4, 5, 6⟩ ∧
    mSample.set_date_from_exif "2001:02:03 04:05:06" =
      (Except.ok (), mSample.set_date ⟨2001, 2, 3, 4, 5, 6⟩) ∧
    getTagString (mSample.set_date ⟨2001, 2, 3, 4, 5, 6⟩).litte_metadata
      ExifTagId.DateTimeOriginal =
      some (NaiveDateTime.toExifString ⟨2001, 2, 3, 4, 5, 6⟩) :=
  ⟨rfl,
   (set_date_from_exif_spec mSample "2001:01:01").1 rfl,
   rfl,
   ((set_date_from_exif_spec mSample "2001:02:03 04:05:06").2 _ rfl).1,
   (((set_date_from_exif_spec mSample "2001:02:03 04:05:06").2 _ rfl).2 (by decide)).1⟩

/-- C8 witness: one explicit code outside the table renders as the
generic unknown label. -/
theorem flash_unknown_codes_spec_witness :
    (2 : Nat) ∉ knownFlashCodes ∧ flash_code_to_string 2 = "Unknown flash code" :=
  ⟨by decide, flash_unknown_codes_spec.2.2.2 2 (by decide)⟩

/-- C9 witness: DateTimeOriginal present but unparsable yields date None
even though a parsable CreateDate is present. -/
theorem load_date_fallback_by_presence_witness :
    getTagString ([(ExifTagId.DateTimeOriginal, ExifValue.str "garbage"),
        (ExifTagId.CreateDate, ExifValue.str "2001:01:01 01:01:01")] : TagStore)
      ExifTagId.DateTimeOriginal = some "garbage" ∧
    NaiveDateTime.fromExifString "garbage" = none ∧
    loadDate ([(ExifTagId.DateTimeOriginal, ExifValue.str "garbage"),
        (ExifTagId.CreateDate, ExifValue.str "2001:01:01 01:01:01")] : TagStore) = none ∧
    (NaiveDateTime.fromExifString "2001:01:01 01:01:01").isSome = true :=
  ⟨rfl, rfl,
   (load_date_fallback_by_presence
     ([(ExifTagId.DateTimeOriginal, ExifValue.str "garbage"),
       (ExifTagId.CreateDate, ExifValue.str "2001:01:01 01:01:01")] : TagStore)
     "garbage").1 rfl rfl,
   rfl⟩
